import Mathlib

/-!
Verification development for the `sim` package of the keyhole load-test
orchestrator (`src/sim/runner.go`), shallowly embedded in Lean.

The embedding follows the Go source: pure computations (the chunk-split
boundary arithmetic of `splitChunks`) become Lean functions; effectful
control flow (`Start`, `terminate`, `Cleanup`, the chunk-migration walk,
the termination triggers) becomes explicit traces of events or a step
relation over an explicit state, with the outcomes of external database
commands supplied as oracle parameters.
-/

namespace Keyhole

/-! ## Shard partition planner (`splitChunks`, runner.go lines 346-421) -/

/-- The ordered key domain used by `splitChunks`: the 26 letters A-Z
(`shardKeys` in runner.go line 381). -/
def shardKeys : List String :=
  ["A", "B", "C", "D", "E", "F", "G", "H", "I", "J", "K", "L", "M",
   "N", "O", "P", "Q", "R", "S", "T", "U", "V", "W", "X", "Y", "Z"]

/-- divider computed by `splitChunks` (runner.go line 383):
`divider := 1 + len(shardKeys)/(len(shards)+1)` where `shards` is the
list of non-primary shards. Go integer division on non-negative ints is
floor division, as is Nat division here. -/
def divider (numShards : Nat) : Nat := 1 + shardKeys.length / (numShards + 1)

/-- Index into `shardKeys` of the i-th split boundary (runner.go line 385):
`shardKeys[(i+1)*divider]`. -/
def splitBoundaryIdx (numShards i : Nat) : Nat := (i + 1) * divider numShards

/-- The indexes of all split boundaries issued by the split loop
(runner.go lines 384-389): one per non-primary shard, in order. -/
def splitBoundaries (numShards : Nat) : List Nat :=
  (List.range numShards).map (splitBoundaryIdx numShards)

/-- Outcome of the chunk-migration walk of `splitChunks`
(runner.go lines 398-418). -/
inductive WalkOutcome where
  /-- The loop ended normally (cursor exhausted, or `break` after the last
  shard was filled by a move); carries the issued move commands as
  (chunk position in cursor order, destination shard). -/
  | finished (moves : List (Nat × String))
  /-- The loop evaluated `shards[i]` with `i` out of range: a Go runtime
  panic (index out of range). -/
  | indexOutOfRange (i : Nat)
  /-- A `moveChunk` command failed: `log.Fatal(err)` terminates the
  process (runner.go line 412). -/
  | fatalMove (msg : String)
deriving DecidableEq

/-- The chunk-migration walk of `splitChunks` (runner.go lines 398-418).
`shards` is the enumerated list of non-primary shard ids; `moveErr k` is
the oracle outcome of the k-th issued `moveChunk` command (`none` =
success); `chunks` lists, in cursor order (sorted by `_id` descending by
the query options), the shard currently holding each chunk; `i` is the
fill pointer, `k` counts issued moves, `pos` the cursor position.
Mirrors the loop body exactly: the bound on `i` is only ever checked by
the array access `shards[i]`; on a matching chunk the pointer advances
and the loop continues without the `i == len(shards)` break check; on a
mismatch a move is issued (fatal on error), the pointer advances, and
the loop breaks when `i` reaches the shard count. -/
def moveChunksWalk (shards : List String) (moveErr : Nat → Option String) :
    List String → Nat → Nat → Nat → WalkOutcome
  | [], _, _, _ => .finished []
  | c :: rest, i, k, pos =>
    if h : i < shards.length then
      if c = shards.get ⟨i, h⟩ then
        moveChunksWalk shards moveErr rest (i + 1) k (pos + 1)
      else
        match moveErr k with
        | some msg => .fatalMove msg
        | none =>
          if i + 1 = shards.length then
            .finished [(pos, shards.get ⟨i, h⟩)]
          else
            match moveChunksWalk shards moveErr rest (i + 1) (k + 1) (pos + 1) with
            | .finished ms => .finished ((pos, shards.get ⟨i, h⟩) :: ms)
            | out => out
    else .indexOutOfRange i

/-- The split loop of `splitChunks` (runner.go lines 384-389): issues one
split command per non-primary shard, in order; `splitErr i` is the oracle
outcome of the i-th split command. The first error is returned
immediately (`return err`), skipping the remaining splits and the whole
move phase. Returns the returned error, if any. -/
def runSplits (splitErr : Nat → Option String) : Nat → Nat → Option String
  | 0, _ => none
  | n + 1, i =>
    match splitErr i with
    | some msg => some msg
    | none => runSplits splitErr n (i + 1)

/-- Outcome of the split-and-move phase of `splitChunks`
(runner.go lines 384-421). -/
inductive SplitChunksOutcome where
  /-- `splitChunks` returned this error to its caller (a failed split
  command); no move was attempted. -/
  | returnedErr (msg : String)
  /-- the process was terminated by `log.Fatal` on a failed `moveChunk`. -/
  | fatalExit (msg : String)
  /-- Go runtime panic: `shards[i]` with `i` out of range. -/
  | indexOutOfRange (i : Nat)
  /-- the phase completed; carries the issued moves. -/
  | ok (moves : List (Nat × String))
deriving DecidableEq

/-- The split-and-move phase of `splitChunks`: run the split loop, then,
only if every split succeeded, the chunk-migration walk. -/
def splitChunksRun (shards chunks : List String)
    (splitErr moveErr : Nat → Option String) : SplitChunksOutcome :=
  match runSplits splitErr shards.length 0 with
  | some msg => .returnedErr msg
  | none =>
    match moveChunksWalk shards moveErr chunks 0 0 0 with
    | .finished ms => .ok ms
    | .indexOutOfRange i => .indexOutOfRange i
    | .fatalMove msg => .fatalExit msg

/-- How the run proceeds after `createIndexes` calls `splitChunks`
(runner.go lines 287-291). -/
inductive RunContinuation where
  /-- `createIndexes` goes on (and the run with it); a returned error was
  merely printed (`fmt.Println(err)`, runner.go line 289). -/
  | continues (logged : Option String)
  /-- the process was terminated (`log.Fatal` inside `splitChunks`). -/
  | terminated (msg : String)
  /-- Go runtime panic inside `splitChunks`. -/
  | indexOutOfRange (i : Nat)
deriving DecidableEq

/-- The sharded-cluster branch of `createIndexes` (runner.go lines
287-291): `if err = rn.splitChunks(); err != nil { fmt.Println(err) }` -
the returned error is printed and execution continues. -/
def createIndexesSplitStep (shards chunks : List String)
    (splitErr moveErr : Nat → Option String) : RunContinuation :=
  match splitChunksRun shards chunks splitErr moveErr with
  | .returnedErr msg => .continues (some msg)
  | .ok _ => .continues none
  | .fatalExit msg => .terminated msg
  | .indexOutOfRange i => .indexOutOfRange i

/-! ## Phase scheduler (`Start`, runner.go lines 146-198) -/

/-- Events of one run of the load-test body of `Start` (lines 176-196),
as seen by a single worker: global index creation, the worker's
population step, the worker's simulation step with its duration in
minutes. -/
inductive StartEvent where
  | createIdx
  | populate
  | simulate (minutes : Int)
deriving DecidableEq

/-- simTime as computed by `Start` (runner.go lines 176-180):
`simTime := rn.duration; if rn.simOnly == false { simTime-- }`.
Go `int` arithmetic; durations here never approach overflow, so `Int`. -/
def simTimeOf (duration : Int) (simOnly : Bool) : Int :=
  if simOnly then duration else duration - 1

/-- Ordered trace of the load-test body of `Start` (runner.go lines
176-196) through one worker: `createIndexes` is called iff
`simOnly == false` (line 177-180), before the workers are spawned; each
worker runs `PopulateData` iff `simOnly == false && duration > 0`
(line 183), then `Simulate(simTime, ...)` (line 191). -/
def startTrace (duration : Int) (simOnly : Bool) : List StartEvent :=
  (if simOnly then [] else [.createIdx]) ++
  (if simOnly = false ∧ 0 < duration then [.populate] else []) ++
  [.simulate (simTimeOf duration simOnly)]

/-! ## Termination coordinator (`terminate` / `CollectAllStatus` /
`SetPeekingMode`, runner.go lines 110-119, 200-231, 254-269) -/

/-- The three termination triggers: the wall-clock timer and the OS
interrupt signal (both drained by the `select` loop of
`CollectAllStatus`, lines 258-268) and the deferred peek deadline (the
goroutine spawned by `SetPeekingMode`, lines 114-117). -/
inductive Trigger where
  | timer
  | opSignal
  | peekDeadline
deriving DecidableEq

/-- Whether a trigger is handled by the `CollectAllStatus` select loop
(timer and OS signal) rather than by the peek-deadline goroutine. -/
def isLoopTrigger : Trigger → Bool
  | .timer => true
  | .opSignal => true
  | .peekDeadline => false

/-- One thread of control that can call `terminate`: which trigger made
it do so (if any), and its program counter inside the body of
`terminate` (`none` = not inside; `some k` = about to run step `k` of
the body: 0 cleanup, 1 per-shard status collection, 2 metrics write,
3 `os.Exit(0)`). -/
structure ThreadState where
  triggeredBy : Option Trigger
  pc : Option Nat
deriving DecidableEq

/-- Global state of the termination coordinator. Exactly two threads of
control ever call `terminate`: the `CollectAllStatus` select-loop
goroutine (which serializes the timer and the OS signal - `terminate`
never returns, so the loop handles at most one of them) and the
peek-deadline goroutine. `entries` counts, cumulatively, how many times
the body of `terminate` has been entered; `acted` records the triggers
acted upon, in order; `exited` is set by `os.Exit`, after which no
thread runs. -/
structure CoordState where
  loopThread : ThreadState
  peekThread : ThreadState
  exited : Bool
  entries : Nat
  acted : List Trigger
deriving DecidableEq

/-- Initial coordinator state: no trigger fired, nobody inside
`terminate`, process alive. -/
def initCoord : CoordState :=
  { loopThread := ⟨none, none⟩, peekThread := ⟨none, none⟩,
    exited := false, entries := 0, acted := [] }

/-- Interleaved small-step semantics of the termination paths of
runner.go. There is no shutdown gate in the source: `terminate` (lines
200-231) checks no flag before running, so any thread whose trigger
fires while the process is alive enters the body; the only
serialization is structural (the select loop blocks inside `terminate`
forever, so it enters at most once; `os.Exit` stops every thread). -/
inductive CoordStep : CoordState → CoordState → Prop
  /-- The select loop of `CollectAllStatus` receives the timer or the OS
  signal and calls `terminate`; only possible while the process is alive
  and the loop is not already inside `terminate`. -/
  | loopTrigger (s : CoordState) (t : Trigger) (ht : isLoopTrigger t = true)
      (hex : s.exited = false) (hpc : s.loopThread.pc = none) :
      CoordStep s { s with loopThread := ⟨some t, some 0⟩,
                           entries := s.entries + 1, acted := s.acted ++ [t] }
  /-- The deferred peek-deadline goroutine wakes and calls `terminate`. -/
  | peekTrigger (s : CoordState)
      (hex : s.exited = false) (hpc : s.peekThread.pc = none) :
      CoordStep s { s with peekThread := ⟨some .peekDeadline, some 0⟩,
                           entries := s.entries + 1,
                           acted := s.acted ++ [.peekDeadline] }
  /-- The select-loop thread runs one step of the `terminate` body. -/
  | loopAdvance (s : CoordState) (k : Nat) (hex : s.exited = false)
      (hpc : s.loopThread.pc = some k) (hk : k < 3) :
      CoordStep s { s with loopThread := { s.loopThread with pc := some (k + 1) } }
  /-- The peek thread runs one step of the `terminate` body. -/
  | peekAdvance (s : CoordState) (k : Nat) (hex : s.exited = false)
      (hpc : s.peekThread.pc = some k) (hk : k < 3) :
      CoordStep s { s with peekThread := { s.peekThread with pc := some (k + 1) } }
  /-- The select-loop thread reaches `os.Exit(0)`. -/
  | loopExit (s : CoordState) (hex : s.exited = false)
      (hpc : s.loopThread.pc = some 3) :
      CoordStep s { s with exited := true }
  /-- The peek thread reaches `os.Exit(0)`. -/
  | peekExit (s : CoordState) (hex : s.exited = false)
      (hpc : s.peekThread.pc = some 3) :
      CoordStep s { s with exited := true }

/-- States reachable from process start. -/
def CoordReachable (s : CoordState) : Prop :=
  Relation.ReflTransGen CoordStep initCoord s

/-- Shared-state invariant of the coordinator: the cumulative entry
count equals the number of acted triggers, and each thread accounts for
the triggers it handles. -/
def coordInv (s : CoordState) : Prop :=
  s.acted.countP (fun t => isLoopTrigger t) =
    (if s.loopThread.pc.isSome then 1 else 0) ∧
  s.acted.countP (fun t => !isLoopTrigger t) =
    (if s.peekThread.pc.isSome then 1 else 0) ∧
  s.entries = s.acted.length

/-- Coordinator state after the select loop has received the timer and
entered `terminate`. -/
def coordAfterTimer : CoordState :=
  { loopThread := ⟨some .timer, some 0⟩, peekThread := ⟨none, none⟩,
    exited := false, entries := 1, acted := [.timer] }

/-- Coordinator state after, in addition, the peek deadline fired and
also entered `terminate` - before either thread reached `os.Exit`. -/
def coordBothEntered : CoordState :=
  { loopThread := ⟨some .timer, some 0⟩,
    peekThread := ⟨some .peekDeadline, some 0⟩,
    exited := false, entries := 2, acted := [.timer, .peekDeadline] }

/-! ## Termination sequence (`terminate`, runner.go lines 200-231) -/

/-- Events of one execution of `terminate`. -/
inductive TermEvent where
  /-- the initial `rn.Cleanup()` call (line 206). -/
  | cleanup
  /-- final server status collected for a shard URI, written to `file`. -/
  | statusOk (uri file : String)
  /-- client creation or `printServerStatus` failed for this URI; the
  error is logged and the loop continues (lines 209-210, 215-216). -/
  | statusFailed (uri : String)
  /-- `json.Marshal(rn.metrics)` failed; the error is logged
  (line 226) and execution continues. -/
  | marshalFailedLog
  /-- `gox.OutputGzipped(buf, filename)` writes the compressed metrics
  snapshot (line 228). -/
  | writeFile (name : String)
  /-- `os.Exit(code)` (line 230). -/
  | exitCode (code : Nat)
deriving DecidableEq

/-- The per-URI status loop of `terminate` (runner.go lines 207-219):
for each URI of `rn.uriList`, in order, either a status file is produced
or the failure is logged and the loop continues with the next URI.
`res uri` is the oracle outcome: `some file` on success, `none` when
client creation or `printServerStatus` fails. -/
def statusLoop (res : String → Option String) : List String → List TermEvent
  | [] => []
  | uri :: rest =>
    match res uri with
    | none => .statusFailed uri :: statusLoop res rest
    | some f => .statusOk uri f :: statusLoop res rest

/-- The metrics output filename (runner.go line 223):
`"keyhole_perf." + fileTimestamp + ".bson.gz"`. -/
def perfFilename (ts : String) : String := "keyhole_perf." ++ ts ++ ".bson.gz"

/-- Ordered event trace of `terminate` (runner.go lines 200-231):
cleanup, then the per-URI status loop over the whole shard URI list,
then (on marshal failure) a logged error, then the gzip-compressed
metrics write, then `os.Exit(0)` - unconditionally, also when the
marshal failed. -/
def terminateTrace (uris : List String) (res : String → Option String)
    (marshalOk : Bool) (ts : String) : List TermEvent :=
  .cleanup :: (statusLoop res uris ++
    ((if marshalOk then [] else [.marshalFailedLog]) ++
      [.writeFile (perfFilename ts), .exitCode 0]))

/-! ## Topology resolution (`NewRunner`, runner.go lines 52-81) -/

/-- Modelled from the spec: the `mdb` package's cluster-type constant
for a sharded cluster (`mdb.Sharded`, not under src/). Only its
inequality with the empty string matters here. -/
def mdbSharded : String := "sharded"

/-- The uriList computation of `NewRunner` (runner.go lines 65-79):
fail with the invalid-cluster-type error when the probed cluster type
string is empty; otherwise start from the singleton entry connection
and, for a sharded cluster, replace it by one URI per enumerated shard.
`getShards` is the oracle outcome of `mdb.GetShards`; `uriOf` is
modelled from the spec (`mdb.GetAllShardURIs` is not under src/): it
derives one connection URI per shard, reusing the entry connection's
auth/TLS material. -/
def newRunnerUriList (clusterType entry : String)
    (getShards : Except String (List String)) (uriOf : String → String) :
    Except String (List String) :=
  if clusterType = "" then .error ("invalid cluster type: " ++ clusterType)
  else if clusterType = mdbSharded then
    match getShards with
    | .error e => .error e
    | .ok shards => .ok (shards.map uriOf)
  else .ok [entry]

/-! ## Cleanup (`Cleanup`, runner.go lines 322-344) -/

/-- Modelled from the spec: the `mdb` package's default database name
constant (`mdb.KeyholeDB`, not under src/); the spec and the comment at
runner.go line 163 give its value. -/
def KeyholeDB : String := "_KEYHOLE_88800"

/-- Modelled from the spec: the `mdb` package's default collection name
constant (`mdb.ExamplesCollection`, not under src/), the examples
collection of the spec. -/
def ExamplesCollection : String := "examples"

/-- Events of one execution of `Cleanup`. -/
inductive CleanupEvent where
  | dropCollection (db coll : String)
  | dropDatabase (db : String)
  | sleepSeconds (n : Nat)
deriving DecidableEq

/-- Ordered event trace of `Cleanup` (runner.go lines 323-344). In peek
mode it returns immediately (lines 325-327): no drop, no sleep.
Otherwise, when `simOnly == false && dbName == mdb.KeyholeDB` it drops
the examples collection (only when the collection name is the default,
lines 330-335) and then the whole database (lines 336-339); in every
non-peek case it sleeps one second before returning (line 342). The
`dropFirst` flag (`rn.drop`) is accepted here because the spec claims
condition on it, but `Cleanup` itself never reads it - it only decides
whether `Start` calls `Cleanup` at all (runner.go lines 165-167). -/
def cleanupTrace (dropFirst peek simOnly : Bool)
    (dbName collName : String) : List CleanupEvent :=
  if peek then []
  else
    (if simOnly = false ∧ dbName = KeyholeDB then
      (if collName = ExamplesCollection then
        [.dropCollection KeyholeDB ExamplesCollection]
      else []) ++ [.dropDatabase dbName]
    else []) ++ [.sleepSeconds 1]

/-! ## Setter call sequences (`SetPeekingMode` / `SetSimulationDuration`,
runner.go lines 110-124) -/

/-- The runner configuration state the setters act on: `duration` starts
at the Go zero value 0 (no field initializer in `NewRunner` touches it);
only `SetSimulationDuration` writes it. -/
structure RunnerState where
  duration : Int
  peek : Bool
deriving DecidableEq

/-- State of a freshly constructed runner. -/
def initialRunnerState : RunnerState := { duration := 0, peek := false }

/-- A configuration call on the runner: `SetPeekingMode`,
`SetSimulationDuration`, or any of the other setters (none of which
touches `duration` or `peek`). -/
inductive SetterCall where
  | setPeekingMode (mode : Bool)
  | setSimulationDuration (d : Int)
  | setOther
deriving DecidableEq

/-- Effect of one setter call: the new state, and the deadline (in
minutes) of a peek-termination timer scheduled by the call, if any.
`SetPeekingMode` (runner.go lines 111-119) spawns
`go func(x int) { time.Sleep(x minutes); rn.terminate() }(rn.duration)`:
the argument `rn.duration` is evaluated at the moment of the call, so
the scheduled deadline is the duration held then, not the finally
configured one. -/
def applyCall (s : RunnerState) : SetterCall → RunnerState × Option Int
  | .setPeekingMode mode =>
      ({ s with peek := mode }, if mode then some s.duration else none)
  | .setSimulationDuration d => ({ s with duration := d }, none)
  | .setOther => (s, none)

/-- Run a sequence of setter calls from a state, collecting the
scheduled peek deadlines in order. -/
def runCalls (s : RunnerState) : List SetterCall → RunnerState × List Int
  | [] => (s, [])
  | c :: cs =>
      let step := applyCall s c
      let rest := runCalls step.1 cs
      (rest.1, step.2.toList ++ rest.2)

end Keyhole

namespace Keyhole

/-! ## Theorems: partition planner boundary arithmetic (C3, C5) -/

/-- Claim C3: the spec asserts every boundary index lies within
`[1, N-1]` of the 26-element domain, so every access `shardKeys[(i+1)*divider]`
is in bounds. The code violates this: with 7 non-primary shards the
divider is `1 + 26/8 = 4` and the last boundary index is `(6+1)*4 = 28`,
which is not within `[1, 25]` - the Go access `shardKeys[28]` on the
26-element array panics with an index-out-of-range error. -/
theorem splitChunks_boundary_overflow :
    divider 7 = 4 ∧ splitBoundaryIdx 7 6 = 28 ∧ shardKeys.length = 26 ∧
      splitBoundaries 7 = [4, 8, 12, 16, 20, 24, 28] ∧
      ¬ splitBoundaryIdx 7 6 ≤ shardKeys.length - 1 := by decide

/-- Claim C5: for a sharded cluster with exactly 3 non-primary shards and
the 26-letter domain, `splitChunks` computes `divider = 1 + 26/4 = 7` and
issues splits at domain indexes 7, 14 and 21, i.e. at the letters
H, O and V. -/
theorem three_shard_split_plan :
    divider 3 = 7 ∧ splitBoundaries 3 = [7, 14, 21] ∧
      shardKeys[7]? = some "H" ∧ shardKeys[14]? = some "O" ∧
      shardKeys[21]? = some "V" := by decide

/-! ## Theorems: phase scheduler (C4) -/

/-- Claim C4: for every total duration `D ≥ 1`, with `simulateOnly = false`
the run creates indexes, then populates (1 minute), then simulates for
`D - 1` minutes, in that order; with `simulateOnly = true` there is no
index creation and no population, and the simulation runs the full `D`
minutes. -/
theorem phase_schedule (D : Int) (hD : 1 ≤ D) :
    startTrace D false = [.createIdx, .populate, .simulate (D - 1)] ∧
      D - (D - 1) = 1 ∧
      startTrace D true = [.simulate D] := by
  refine ⟨?_, by omega, ?_⟩
  · have h0 : (0 : Int) < D := by omega
    simp [startTrace, simTimeOf, h0]
  · simp [startTrace, simTimeOf]

/-- Witness for `phase_schedule` at the concrete duration `D = 3`. -/
theorem phase_schedule_witness :
    startTrace 3 false = [.createIdx, .populate, .simulate (3 - 1)] ∧
      (3 : Int) - (3 - 1) = 1 ∧
      startTrace 3 true = [.simulate 3] :=
  phase_schedule 3 (by norm_num)

/-! ## Theorems: termination coordinator (C1) -/

/-- Every trigger list splits into the loop-handled and the
peek-handled triggers. -/
lemma countP_split_triggers (l : List Trigger) :
    l.length = l.countP (fun t => isLoopTrigger t) +
      l.countP (fun t => !isLoopTrigger t) := by
  induction l with
  | nil => rfl
  | cons a l ih =>
    cases ha : isLoopTrigger a <;> simp [List.countP_cons, ha, ih] <;> omega

/-- The coordinator invariant is preserved by every step. -/
lemma coordInv_step {s u : CoordState} (hs : coordInv s) (h : CoordStep s u) :
    coordInv u := by
  obtain ⟨h1, h2, h3⟩ := hs
  cases h with
  | loopTrigger t ht hex hpc =>
    refine ⟨?_, ?_, ?_⟩ <;>
      simp_all [List.countP_append, List.countP_cons, ht, hpc]
  | peekTrigger hex hpc =>
    refine ⟨?_, ?_, ?_⟩ <;>
      simp_all [List.countP_append, List.countP_cons, hpc, isLoopTrigger]
  | loopAdvance k hex hpc hk => exact ⟨by simp_all, h2, h3⟩
  | peekAdvance k hex hpc hk => exact ⟨h1, by simp_all, h3⟩
  | loopExit hex hpc => exact ⟨h1, h2, h3⟩
  | peekExit hex hpc => exact ⟨h1, h2, h3⟩

/-- The coordinator invariant holds in every reachable state. -/
lemma coordInv_reachable {s : CoordState} (h : CoordReachable s) : coordInv s := by
  have h2 : Relation.ReflTransGen CoordStep initCoord s := h
  clear h
  induction h2 with
  | refl => exact ⟨rfl, rfl, rfl⟩
  | tail hab hbc ih => exact coordInv_step ih hbc

/-- Claim C1 (amended): in every reachable coordinator state, the
`terminate` body has been entered at most twice (once per thread of
control); the select loop accounts for at most one of the timer and
OS-signal triggers, and the peek deadline for at most one entry; and
once the process has exited no trigger has any effect (every further
step is impossible). The original claim - at most one entry total - is
refuted by `terminate_entered_twice`: there is no shutdown gate, so the
peek-deadline goroutine and the select loop can each enter `terminate`
before either reaches `os.Exit`. -/
theorem terminate_trigger_discipline (s : CoordState) (h : CoordReachable s) :
    s.entries ≤ 2 ∧
      s.acted.countP (fun t => isLoopTrigger t) ≤ 1 ∧
      s.acted.countP (fun t => !isLoopTrigger t) ≤ 1 ∧
      (s.exited = true → ∀ u, ¬ CoordStep s u) := by
  obtain ⟨h1, h2, h3⟩ := coordInv_reachable h
  have hl := countP_split_triggers s.acted
  refine ⟨?_, ?_, ?_, ?_⟩
  · rw [h3, hl, h1, h2]; split <;> split <;> simp
  · rw [h1]; split <;> simp
  · rw [h2]; split <;> simp
  · intro hex u hstep
    cases hstep <;> simp_all

/-- Witness for `terminate_trigger_discipline` at the reachable state
`initCoord`. -/
theorem terminate_trigger_discipline_witness :
    initCoord.entries ≤ 2 ∧
      initCoord.acted.countP (fun t => isLoopTrigger t) ≤ 1 ∧
      initCoord.acted.countP (fun t => !isLoopTrigger t) ≤ 1 ∧
      (initCoord.exited = true → ∀ u, ¬ CoordStep initCoord u) :=
  terminate_trigger_discipline initCoord Relation.ReflTransGen.refl

/-- Claim C1 counterexample: a reachable state in which the shutdown
sequence has been entered twice - the select loop entered `terminate` on
the timer, then the peek deadline fired and also entered `terminate`,
before any `os.Exit` - while the process has not yet exited. The claim
that `terminate` is entered exactly once regardless of concurrent
trigger arrivals is therefore false of the code. -/
theorem terminate_entered_twice :
    CoordReachable coordBothEntered ∧ coordBothEntered.entries = 2 ∧
      coordBothEntered.exited = false := by
  refine ⟨?_, rfl, rfl⟩
  have h1 : CoordStep initCoord coordAfterTimer :=
    CoordStep.loopTrigger initCoord Trigger.timer rfl rfl rfl
  have h2 : CoordStep coordAfterTimer coordBothEntered :=
    CoordStep.peekTrigger coordAfterTimer rfl rfl
  exact Relation.ReflTransGen.head h1
    (Relation.ReflTransGen.head h2 Relation.ReflTransGen.refl)

/-! ## Theorems: split and move failure handling (C2) -/

/-- A fatal outcome of the chunk-migration walk can only come from a
failed `moveChunk` command. -/
lemma moveChunksWalk_fatal {shards : List String}
    {moveErr : Nat → Option String} {msg : String} :
    ∀ (chunks : List String) (i k pos : Nat),
      moveChunksWalk shards moveErr chunks i k pos = .fatalMove msg →
      ∃ j, moveErr j = some msg := by
  intro chunks
  induction chunks with
  | nil => intro i k pos h; simp [moveChunksWalk] at h
  | cons c rest ih =>
    intro i k pos h
    rw [moveChunksWalk] at h
    by_cases hi : i < shards.length
    · rw [dif_pos hi] at h
      by_cases hc : c = shards.get ⟨i, hi⟩
      · rw [if_pos hc] at h
        exact ih _ _ _ h
      · rw [if_neg hc] at h
        cases hk : moveErr k with
        | some m =>
          rw [hk] at h
          simp at h
          exact ⟨k, by rw [hk, h]⟩
        | none =>
          rw [hk] at h
          by_cases hb : i + 1 = shards.length
          · rw [if_pos hb] at h; simp at h
          · rw [if_neg hb] at h
            cases hrec : moveChunksWalk shards moveErr rest (i + 1) (k + 1) (pos + 1) with
            | finished ms => rw [hrec] at h; simp at h
            | indexOutOfRange j => rw [hrec] at h; simp at h
            | fatalMove m2 =>
              rw [hrec] at h
              simp at h
              exact ih _ _ _ (by rw [hrec, h])
    · rw [dif_neg hi] at h
      simp at h

/-- Claim C2 (amended): during partition planning, a failed `moveChunk`
command terminates the process (`log.Fatal`), and the process is only
ever terminated by a failed move; a failed split command, by contrast,
makes `splitChunks` return the error - skipping the remaining splits
and the whole move phase - but the caller `createIndexes` merely prints
it and the run continues, so a split failure (in particular a split at
an already-existing boundary) is not fatal. -/
theorem split_and_move_failure_handling (shards chunks : List String)
    (splitErr moveErr : Nat → Option String) (msg : String) :
    (runSplits splitErr shards.length 0 = some msg →
      createIndexesSplitStep shards chunks splitErr moveErr =
        RunContinuation.continues (some msg)) ∧
      (runSplits splitErr shards.length 0 = none →
        moveChunksWalk shards moveErr chunks 0 0 0 = WalkOutcome.fatalMove msg →
        createIndexesSplitStep shards chunks splitErr moveErr =
          RunContinuation.terminated msg) ∧
      (createIndexesSplitStep shards chunks splitErr moveErr =
          RunContinuation.terminated msg →
        ∃ j, moveErr j = some msg) := by
  refine ⟨?_, ?_, ?_⟩
  · intro h
    unfold createIndexesSplitStep splitChunksRun
    rw [h]
  · intro h1 h2
    unfold createIndexesSplitStep splitChunksRun
    rw [h1, h2]
  · intro h
    unfold createIndexesSplitStep splitChunksRun at h
    cases hs : runSplits splitErr shards.length 0 with
    | some m => rw [hs] at h; simp at h
    | none =>
      rw [hs] at h
      cases hw : moveChunksWalk shards moveErr chunks 0 0 0 with
      | finished ms => rw [hw] at h; simp at h
      | indexOutOfRange i => rw [hw] at h; simp at h
      | fatalMove m =>
        rw [hw] at h
        simp at h
        exact moveChunksWalk_fatal chunks 0 0 0 (by rw [hw, h])

/-- Witness for `split_and_move_failure_handling` at a concrete
single-shard configuration whose first move command fails. -/
theorem split_and_move_failure_handling_witness :
    (runSplits (fun _ => none) (List.length ["sh1"]) 0 = some "boom" →
      createIndexesSplitStep ["sh1"] ["sh0"] (fun _ => none)
          (fun _ => some "boom") =
        RunContinuation.continues (some "boom")) ∧
      (runSplits (fun _ => none) (List.length ["sh1"]) 0 = none →
        moveChunksWalk ["sh1"] (fun _ => some "boom") ["sh0"] 0 0 0 =
          WalkOutcome.fatalMove "boom" →
        createIndexesSplitStep ["sh1"] ["sh0"] (fun _ => none)
            (fun _ => some "boom") =
          RunContinuation.terminated "boom") ∧
      (createIndexesSplitStep ["sh1"] ["sh0"] (fun _ => none)
          (fun _ => some "boom") =
          RunContinuation.terminated "boom" →
        ∃ j, (fun _ : Nat => some "boom") j = some "boom") :=
  split_and_move_failure_handling ["sh1"] ["sh0"] (fun _ => none)
    (fun _ => some "boom") "boom"

/-- Claim C2 counterexample: with one non-primary shard and a split
command that fails (e.g. a split at an already-existing boundary), the
run is not terminated - `createIndexes` prints the returned error and
continues. This refutes the claim that every split failure terminates
the process. -/
theorem split_failure_only_logged :
    createIndexesSplitStep ["sh2"] ["sh2"]
        (fun _ => some "split at existing boundary") (fun _ => none) =
      RunContinuation.continues (some "split at existing boundary") ∧
      ∀ m, createIndexesSplitStep ["sh2"] ["sh2"]
          (fun _ => some "split at existing boundary") (fun _ => none) ≠
        RunContinuation.terminated m := by
  constructor
  · rfl
  · intro m h
    have h2 : RunContinuation.continues (some "split at existing boundary") =
        RunContinuation.terminated m := h
    exact RunContinuation.noConfusion h2

/-! ## Theorems: chunk-migration walk (C6) -/

/-- Claim C6: the walk does not, for every chunk list and every
non-empty non-primary shard list, stop once every shard has received a
chunk. When the last shard is satisfied by a chunk already in place,
the fill pointer is advanced past the end without the break check
(which only follows a move), and the next iteration evaluates
`shards[i]` out of range - a Go runtime panic. With one non-primary
shard holding the first chunk and a second chunk remaining, the walk
panics at index 1; by contrast, when the last shard is filled by a
move, the walk does stop as the claim describes. -/
theorem moveChunks_walk_out_of_range :
    moveChunksWalk ["sh1"] (fun _ => none) ["sh1", "sh0"] 0 0 0 =
      WalkOutcome.indexOutOfRange 1 ∧
      moveChunksWalk ["sh1"] (fun _ => none) ["sh0"] 0 0 0 =
        WalkOutcome.finished [(0, "sh1")] := by
  exact ⟨rfl, rfl⟩

/-! ## Theorems: termination sequence (C7) -/

/-- The per-URI status loop produces exactly one event per URI:
a failure for one shard does not remove the others. -/
lemma statusLoop_length (res : String → Option String) :
    ∀ uris : List String, (statusLoop res uris).length = uris.length := by
  intro uris
  induction uris with
  | nil => rfl
  | cons uri rest ih => cases h : res uri <;> simp [statusLoop, h, ih]

/-- Every URI of the list yields a status event in the loop output. -/
lemma statusLoop_mem (res : String → Option String) :
    ∀ (uris : List String) (uri : String), uri ∈ uris →
      TermEvent.statusFailed uri ∈ statusLoop res uris ∨
        ∃ f, TermEvent.statusOk uri f ∈ statusLoop res uris := by
  intro uris
  induction uris with
  | nil => intro uri h; simp at h
  | cons u rest ih =>
    intro uri h
    rcases List.mem_cons.mp h with h | h
    · subst h
      cases hr : res uri with
      | none => left; simp [statusLoop, hr]
      | some f => right; exact ⟨f, by simp [statusLoop, hr]⟩
    · rcases ih uri h with h2 | ⟨f, h2⟩
      · left; cases hr : res u <;> simp [statusLoop, hr, h2]
      · right; exact ⟨f, by cases hr : res u <;> simp [statusLoop, hr, h2]⟩

/-- The last element of a terminate-shaped trace. -/
lemma getLast?_cons_append {α : Type} (a x y : α) (l1 l2 : List α) :
    (a :: (l1 ++ (l2 ++ [x, y]))).getLast? = some y := by
  have h : a :: (l1 ++ (l2 ++ [x, y])) = (a :: (l1 ++ (l2 ++ [x]))) ++ [y] := by
    simp
  rw [h, List.getLast?_concat]

/-- Claim C7: on any termination trigger, `terminate` first runs
cleanup, then collects final server status for every URI of the shard
list (one event per URI - a failure is logged and does not block the
others), then writes the gzip-compressed metrics to a file named
`keyhole_perf.<timestamp>.bson.gz`, and finally exits with status 0 -
also when metrics marshalling failed (the `marshalOk` flag is
arbitrary, including `false`). -/
theorem terminate_sequence (uris : List String) (res : String → Option String)
    (mOk : Bool) (ts : String) :
    (terminateTrace uris res mOk ts).head? = some .cleanup ∧
      (statusLoop res uris).length = uris.length ∧
      (terminateTrace uris res mOk ts).getLast? = some (.exitCode 0) ∧
      TermEvent.writeFile ("keyhole_perf." ++ ts ++ ".bson.gz") ∈
        terminateTrace uris res mOk ts ∧
      (∀ uri ∈ uris,
        TermEvent.statusFailed uri ∈ terminateTrace uris res mOk ts ∨
          ∃ f, TermEvent.statusOk uri f ∈ terminateTrace uris res mOk ts) ∧
      terminateTrace uris res mOk ts =
        TermEvent.cleanup :: (statusLoop res uris ++
          ((if mOk then [] else [TermEvent.marshalFailedLog]) ++
            [TermEvent.writeFile (perfFilename ts), TermEvent.exitCode 0])) := by
  refine ⟨rfl, statusLoop_length res uris, ?_, ?_, ?_, rfl⟩
  · exact getLast?_cons_append _ _ _ _ _
  · simp [terminateTrace, perfFilename]
  · intro uri hu
    rcases statusLoop_mem res uris uri hu with h | ⟨f, h⟩
    · left; simp [terminateTrace]; exact h
    · right; exact ⟨f, by simp [terminateTrace]; exact h⟩

/-- Witness for `terminate_sequence` at a concrete two-shard URI list
where the second status collection fails and metrics marshalling fails. -/
theorem terminate_sequence_witness :
    (terminateTrace ["u1", "u2"]
          (fun u => if u = "u1" then some "f1" else none) false "t0").head? =
        some .cleanup ∧
      (statusLoop (fun u => if u = "u1" then some "f1" else none)
          ["u1", "u2"]).length = (["u1", "u2"] : List String).length ∧
      (terminateTrace ["u1", "u2"]
          (fun u => if u = "u1" then some "f1" else none) false "t0").getLast? =
        some (.exitCode 0) ∧
      TermEvent.writeFile ("keyhole_perf." ++ "t0" ++ ".bson.gz") ∈
        terminateTrace ["u1", "u2"]
          (fun u => if u = "u1" then some "f1" else none) false "t0" ∧
      (∀ uri ∈ (["u1", "u2"] : List String),
        TermEvent.statusFailed uri ∈ terminateTrace ["u1", "u2"]
            (fun u => if u = "u1" then some "f1" else none) false "t0" ∨
          ∃ f, TermEvent.statusOk uri f ∈ terminateTrace ["u1", "u2"]
            (fun u => if u = "u1" then some "f1" else none) false "t0") ∧
      terminateTrace ["u1", "u2"]
          (fun u => if u = "u1" then some "f1" else none) false "t0" =
        TermEvent.cleanup ::
          (statusLoop (fun u => if u = "u1" then some "f1" else none)
              ["u1", "u2"] ++
            ((if false then [] else [TermEvent.marshalFailedLog]) ++
              [TermEvent.writeFile (perfFilename "t0"), TermEvent.exitCode 0])) :=
  terminate_sequence ["u1", "u2"]
    (fun u => if u = "u1" then some "f1" else none) false "t0"

/-! ## Theorems: topology resolution (C8) -/

/-- Claim C8: `NewRunner` fails with the invalid-cluster-type error
exactly when the probed cluster type string is empty (whatever the
shard enumeration would return); for a sharded cluster with a
successful enumeration the resolved list has one URI per shard; for any
non-sharded cluster it is exactly the singleton entry connection. -/
theorem topology_resolution (ct entry : String) (shards : List String)
    (uriOf : String → String) :
    (newRunnerUriList ct entry (.ok shards) uriOf =
        .error ("invalid cluster type: " ++ ct) ↔ ct = "") ∧
      (∀ gs, newRunnerUriList "" entry gs uriOf =
        .error ("invalid cluster type: " ++ "")) ∧
      (ct = mdbSharded →
        newRunnerUriList ct entry (.ok shards) uriOf =
            .ok (shards.map uriOf) ∧
          (shards.map uriOf).length = shards.length) ∧
      (ct ≠ "" → ct ≠ mdbSharded →
        newRunnerUriList ct entry (.ok shards) uriOf = .ok [entry]) := by
  refine ⟨⟨?_, ?_⟩, ?_, ?_, ?_⟩
  · intro h
    by_contra hct
    unfold newRunnerUriList at h
    rw [if_neg hct] at h
    by_cases hs : ct = mdbSharded
    · rw [if_pos hs] at h; exact Except.noConfusion h
    · rw [if_neg hs] at h; exact Except.noConfusion h
  · intro h; subst h; rfl
  · intro gs; rfl
  · intro hs
    have hne : ¬ ct = "" := by rw [hs]; decide
    refine ⟨?_, by simp⟩
    unfold newRunnerUriList
    rw [if_neg hne, if_pos hs]
  · intro h1 h2
    unfold newRunnerUriList
    rw [if_neg h1, if_neg h2]

/-- Witness for `topology_resolution` at a concrete sharded cluster
with two shards. -/
theorem topology_resolution_witness :
    (newRunnerUriList "sharded" "mongodb://entry"
          (.ok ["shA", "shB"]) (fun s => s ++ "/uri") =
        .error ("invalid cluster type: " ++ "sharded") ↔ "sharded" = "") ∧
      (∀ gs, newRunnerUriList "" "mongodb://entry" gs (fun s => s ++ "/uri") =
        .error ("invalid cluster type: " ++ "")) ∧
      ("sharded" = mdbSharded →
        newRunnerUriList "sharded" "mongodb://entry"
              (.ok ["shA", "shB"]) (fun s => s ++ "/uri") =
            .ok ((["shA", "shB"] : List String).map (fun s => s ++ "/uri")) ∧
          ((["shA", "shB"] : List String).map (fun s => s ++ "/uri")).length =
            (["shA", "shB"] : List String).length) ∧
      ("sharded" ≠ "" → "sharded" ≠ mdbSharded →
        newRunnerUriList "sharded" "mongodb://entry"
            (.ok ["shA", "shB"]) (fun s => s ++ "/uri") =
          .ok ["mongodb://entry"]) :=
  topology_resolution "sharded" "mongodb://entry" ["shA", "shB"]
    (fun s => s ++ "/uri")

/-! ## Theorems: cleanup (C9) -/

/-- Claim C9 counterexample: with `dropFirst` enabled and the target
database the default, but the runner in peek mode, `Cleanup` performs
no drop at all and does not sleep - it returns immediately. The claim,
which conditions only on `dropFirst` and the database name, is
therefore false as stated. -/
theorem cleanup_peek_mode_skips_everything :
    cleanupTrace true true false KeyholeDB ExamplesCollection = [] ∧
      CleanupEvent.dropDatabase KeyholeDB ∉
        cleanupTrace true true false KeyholeDB ExamplesCollection ∧
      CleanupEvent.sleepSeconds 1 ∉
        cleanupTrace true true false KeyholeDB ExamplesCollection := by
  refine ⟨rfl, by simp [cleanupTrace], by simp [cleanupTrace]⟩

/-- Claim C9 (amended): provided peek mode and simulate-only mode are
off, when the target database is the default `_KEYHOLE_88800`,
`Cleanup` drops the examples collection first - exactly when the
collection name is the default - then drops the whole database, and
sleeps 1 second (≥ 1 second) as its final action before returning.
(`Cleanup` itself never reads `dropFirst`; that flag only decides
whether `Start` calls `Cleanup`.) -/
theorem cleanup_default_run (dropFirst : Bool) (coll : String) :
    (cleanupTrace dropFirst false false KeyholeDB coll).getLast? =
        some (.sleepSeconds 1) ∧
      CleanupEvent.dropDatabase KeyholeDB ∈
        cleanupTrace dropFirst false false KeyholeDB coll ∧
      (CleanupEvent.dropCollection KeyholeDB ExamplesCollection ∈
          cleanupTrace dropFirst false false KeyholeDB coll ↔
        coll = ExamplesCollection) ∧
      (coll = ExamplesCollection →
        cleanupTrace dropFirst false false KeyholeDB coll =
          [.dropCollection KeyholeDB ExamplesCollection,
           .dropDatabase KeyholeDB, .sleepSeconds 1]) := by
  by_cases hc : coll = ExamplesCollection <;>
    simp [cleanupTrace, hc]

/-- Witness for `cleanup_default_run` with the default collection
name. -/
theorem cleanup_default_run_witness :
    (cleanupTrace true false false KeyholeDB ExamplesCollection).getLast? =
        some (.sleepSeconds 1) ∧
      CleanupEvent.dropDatabase KeyholeDB ∈
        cleanupTrace true false false KeyholeDB ExamplesCollection ∧
      (CleanupEvent.dropCollection KeyholeDB ExamplesCollection ∈
          cleanupTrace true false false KeyholeDB ExamplesCollection ↔
        ExamplesCollection = ExamplesCollection) ∧
      (ExamplesCollection = ExamplesCollection →
        cleanupTrace true false false KeyholeDB ExamplesCollection =
          [.dropCollection KeyholeDB ExamplesCollection,
           .dropDatabase KeyholeDB, .sleepSeconds 1]) :=
  cleanup_default_run true ExamplesCollection

/-! ## Theorems: peek deadline capture (C10) -/

/-- Running an appended call sequence splits into the two runs, with
the deadlines concatenated. -/
lemma runCalls_append (s : RunnerState) (xs ys : List SetterCall) :
    runCalls s (xs ++ ys) =
      ((runCalls (runCalls s xs).1 ys).1,
        (runCalls s xs).2 ++ (runCalls (runCalls s xs).1 ys).2) := by
  induction xs generalizing s with
  | nil => simp [runCalls]
  | cons c cs ih => simp [runCalls, ih]

/-- A call sequence containing no `SetSimulationDuration` call leaves
the duration field unchanged. -/
lemma runCalls_duration_const (s : RunnerState) (xs : List SetterCall)
    (h : ∀ d, SetterCall.setSimulationDuration d ∉ xs) :
    (runCalls s xs).1.duration = s.duration := by
  induction xs generalizing s with
  | nil => rfl
  | cons c cs ih =>
    have hc : ∀ d, SetterCall.setSimulationDuration d ∉ cs := by
      intro d hd
      exact h d (List.mem_cons_of_mem _ hd)
    cases c with
    | setPeekingMode m => simpa [runCalls, applyCall] using ih _ hc
    | setSimulationDuration d => exact absurd (List.mem_cons_self _ _) (h d)
    | setOther => simpa [runCalls, applyCall] using ih _ hc

/-- Claim C10: the deferred peek-deadline timer spawned by
`SetPeekingMode(true)` sleeps for the value of the duration field held
at the moment of the call (the goroutine argument `rn.duration` is
evaluated at spawn), not the finally configured duration. In
particular, for every call sequence in which `SetPeekingMode(true)`
precedes every `SetSimulationDuration` call, the scheduled deadline is
0 minutes - termination is scheduled immediately - regardless of the
duration `D` configured afterwards. -/
theorem peek_deadline_uses_duration_at_call (t : RunnerState)
    (pre post : List SetterCall) (D : Int)
    (h : ∀ d, SetterCall.setSimulationDuration d ∉ pre) :
    (applyCall t (.setPeekingMode true)).2 = some t.duration ∧
      (applyCall (runCalls initialRunnerState pre).1 (.setPeekingMode true)).2 =
        some 0 ∧
      ∃ rest,
        (runCalls initialRunnerState
            (pre ++ SetterCall.setPeekingMode true ::
              SetterCall.setSimulationDuration D :: post)).2 =
          (runCalls initialRunnerState pre).2 ++ 0 :: rest := by
  have hdur : (runCalls initialRunnerState pre).1.duration = 0 :=
    runCalls_duration_const _ _ h
  refine ⟨rfl, by simp [applyCall, hdur], ?_⟩
  refine ⟨(runCalls (applyCall (runCalls initialRunnerState pre).1
      (.setPeekingMode true)).1
      (SetterCall.setSimulationDuration D :: post)).2, ?_⟩
  rw [runCalls_append]
  simp [runCalls, applyCall, hdur]

/-- Witness for `peek_deadline_uses_duration_at_call`:
`SetPeekingMode(true)` called right after construction (one unrelated
setter before it) and `SetSimulationDuration 5` after it schedules a
0-minute deadline. -/
theorem peek_deadline_uses_duration_at_call_witness :
    (applyCall initialRunnerState (.setPeekingMode true)).2 =
        some initialRunnerState.duration ∧
      (applyCall (runCalls initialRunnerState [SetterCall.setOther]).1
          (.setPeekingMode true)).2 = some 0 ∧
      ∃ rest,
        (runCalls initialRunnerState
            ([SetterCall.setOther] ++ SetterCall.setPeekingMode true ::
              SetterCall.setSimulationDuration 5 :: [])).2 =
          (runCalls initialRunnerState [SetterCall.setOther]).2 ++ 0 :: rest :=
  peek_deadline_uses_duration_at_call initialRunnerState
    [SetterCall.setOther] [] 5 (by intro d; simp)

end Keyhole
